import Mathlib

/-!
Shallow embedding of the scenario Runner (src/plugins/scenario/Runner.ts):
the combo generator, solution normalization, snapshot-based combo isolation,
and the result aggregation of `Runner.run` / `Runner.generateResult`.

Conventions of the embedding, reflecting the JavaScript runtime:
* user-supplied async functions may throw: they return `Except (JsError V) _`
  and thread the external world state `ω` explicitly;
* a snapshot handle is modelled as the captured world state itself
  (`snapshot` captures the current state, `revertAndSnapshot` restores the
  captured state and captures it again);
* numbers that reach the `Result` record are `JsNum` (a rational, NaN, or a
  signed infinity), since `gasUsed` is produced by JS division;
* the `Result` fields hit by untyped positional argument passing hold a
  `JsVal` (a number or a thrown error object), mirroring the untyped runtime
  values that actually flow there;
* wall-clock time (`Date.now`) is outside the model: `elapsed` is fixed at 0.
-/

namespace Comet

/-- JS numbers as they arise in the Runner: a rational, NaN, or a signed
infinity (the latter two from division). -/
inductive JsNum : Type where
  | real (q : ℚ)
  | nan
  | posInf
  | negInf
deriving DecidableEq

/-- JS division on numbers: `0/0 = NaN`, `a/0 = ±Infinity` for `a ≠ 0`,
NaN propagates, division by an infinity gives 0. -/
def JsNum.div : JsNum → JsNum → JsNum
  | .real a, .real b =>
      if b = 0 then (if a = 0 then .nan else if 0 < a then .posInf else .negInf)
      else .real (a / b)
  | .nan, _ => .nan
  | _, .nan => .nan
  | .posInf, .real b => if b < 0 then .negInf else .posInf
  | .negInf, .real b => if b < 0 then .posInf else .negInf
  | .real _, .posInf => .real 0
  | .real _, .negInf => .real 0
  | .posInf, .posInf => .nan
  | .posInf, .negInf => .nan
  | .negInf, .posInf => .nan
  | .negInf, .negInf => .nan

/-- A thrown JS error as the Runner observes it: whether it is a chai
`AssertionError`, its `actual` and `expected` fields (`none` models an
absent field, i.e. `undefined`), and its `stack`. -/
structure JsError (V : Type) : Type where
  isAssertionError : Bool
  actual : Option V
  expected : Option V
  stack : String
deriving DecidableEq

/-- An untyped JS runtime value reaching a `Result` field: a number or a
thrown error object. -/
inductive JsVal (V : Type) : Type where
  | num (n : JsNum)
  | errObj (e : JsError V)
deriving DecidableEq

/-- JS numeric coercion: an error object coerces to NaN. -/
def JsVal.toNum {V : Type} : JsVal V → JsNum
  | .num n => n
  | .errObj _ => .nan

/-- JS division on untyped values (numeric coercion, then `JsNum.div`). -/
def JsVal.div {V : Type} (a b : JsVal V) : JsNum := JsNum.div a.toNum b.toNum

/-- The JS falsy values a solution may resolve to. -/
inductive Falsy : Type where
  | undef
  | nullV
  | falseV
  | zero
  | emptyStr
  | nanV
deriving DecidableEq

/-- What a solution call resolves to: a (truthy) context object, or one of
the falsy values (`undefined`, `null`, `false`, `0`, the empty string,
`NaN`). -/
inductive SolRet (T : Type) : Type where
  | truthy (t : T)
  | falsy (f : Falsy)
deriving DecidableEq

/-- Type `Solution<T>`: an async function `(ctx, world)` resolving to an
optional new context; it may throw and may mutate the world. -/
def Solution (V T ω : Type) : Type := T → ω → (Except (JsError V) (SolRet T)) × ω

/-- Function `identity`: `async (ctx, world) => ctx`. -/
def identity {V T ω : Type} : Solution V T ω := fun ctx w => (.ok (.truthy ctx), w)

/-- The value a constraint's `solve` resolves to:
`Solution<T> | Solution<T>[] | null` (with `undefined` behaving like
`null` under the loose `==` check). -/
inductive SolveRes (V T ω : Type) : Type where
  | nullish
  | single (s : Solution V T ω)
  | arr (l : List (Solution V T ω))

/-- Function `asList`: `[].concat(v)` wraps a bare value in a one-element
list and passes an array through unchanged. -/
def asList {V T ω : Type} :
    Solution V T ω ⊕ List (Solution V T ω) → List (Solution V T ω)
  | .inl s => [s]
  | .inr l => l

/-- Function `mapSolution`: a nullish result becomes the identity solution,
otherwise `asList` applies. -/
def mapSolution {V T ω : Type} : SolveRes V T ω → List (Solution V T ω)
  | .nullish => [identity]
  | .single s => asList (.inl s)
  | .arr l => asList (.inr l)

/-- The gas-bearing part of a transaction receipt,
`txnReceipt.cumulativeGasUsed.toNumber()`. -/
structure Receipt : Type where
  cumulativeGasUsed : ℕ
deriving DecidableEq

/-- Type `Constraint<T,U>`: `solve` (read-only on context and world, per
the source comment) and `check` (may throw; threads the world). -/
structure Constraint (V T U ω : Type) : Type where
  solve : U → T → ω → Except (JsError V) (SolveRes V T ω)
  check : U → T → ω → (Except (JsError V) Unit) × ω

/-- Type `Scenario<T,U>` as consumed by the Runner. -/
structure Scenario (V T U A ω : Type) : Type where
  name : String
  file : Option String
  requirements : U
  initializer : ω → (Except (JsError V) T) × ω
  forker : T → Except (JsError V) T
  transformer : T → Except (JsError V) A
  property : A → ω → T → (Except (JsError V) (Option Receipt)) × ω
  constraints : List (Constraint V T U ω)

/-- Type `ForkSpec`: only its `name` reaches the Runner. -/
structure ForkSpec : Type where
  name : String
deriving DecidableEq

/-- The `Result` record. Field `numSolutionSets` is a `JsVal` because the
failure path of `run` passes an untyped runtime value into that position. -/
structure Result (V : Type) : Type where
  base : String
  file : String
  scenario : String
  gasUsed : JsNum
  numSolutionSets : JsVal V
  elapsed : ℕ
  error : Option (JsError V)
  trace : Option String
  diff : Option (Option V × Option V)
deriving DecidableEq

/-- Method `Runner.generateResult`. The `totalGas` and `numSolutionSets`
parameters are `JsVal` because `run`'s failure path passes the thrown error
in the `numSolutionSets` position (TypeScript's declared `number` types are
erased at runtime). `elapsed` is fixed at 0: wall-clock time is outside the
model. -/
def generateResult {V T U A ω : Type} [DecidableEq V] (base : ForkSpec)
    (scenario : Scenario V T U A ω) (_startTime : ℕ) (totalGas : JsVal V)
    (numSolutionSets : JsVal V) (err : Option (JsError V)) : Result V :=
  let diff : Option (Option V × Option V) :=
    match err with
    | some e =>
        if e.isAssertionError then
          if e.actual ≠ e.expected then some (e.actual, e.expected) else none
        else none
    | none => none
  { base := base.name
    file := scenario.file.getD scenario.name
    scenario := scenario.name
    gasUsed := JsVal.div totalGas numSolutionSets
    numSolutionSets := numSolutionSets
    elapsed := 0
    error := err
    trace := err.map (fun e => e.stack)
    diff := diff }

/-- Method `world._snapshot()`: a handle is the captured world state. -/
def World.snapshot {ω : Type} (w : ω) : ω × ω := (w, w)

/-- Method `world._revertAndSnapshot(handle)`: restore the captured state
and capture it again, returning the new handle and the restored world. -/
def World.revertAndSnapshot {ω : Type} (h : ω) (_w : ω) : ω × ω := (h, h)

/-- Generator `combos<T>(choices: T[][])`: for the empty list yield one
empty combination; otherwise fix each element of the head list in order and
recurse over the remaining lists. -/
def combos {α : Type} : List (List α) → List (List α)
  | [] => [[]]
  | c :: cs => c.flatMap (fun option => (combos cs).map (fun combo => option :: combo))

/-- The solution-application loop of `run`:
`for (const solution of combo) ctx = (await solution(ctx, world)) || ctx`.
A falsy resolution keeps the previous context reference. -/
def applySolutions {V T ω : Type} :
    List (Solution V T ω) → T → ω → (Except (JsError V) T) × ω
  | [], ctx, w => (.ok ctx, w)
  | s :: rest, ctx, w =>
      match s ctx w with
      | (.error e, w1) => (.error e, w1)
      | (.ok ret, w1) =>
          match ret with
          | .truthy t => applySolutions rest t w1
          | .falsy _ => applySolutions rest ctx w1

/-- The re-validation loop of `run`:
`for (const constraint of constraints) await constraint.check(...)`. -/
def runChecks {V T U ω : Type} :
    List (Constraint V T U ω) → U → T → ω → (Except (JsError V) Unit) × ω
  | [], _, _, w => (.ok ⟨⟩, w)
  | c :: rest, req, ctx, w =>
      match c.check req ctx w with
      | (.error e, w1) => (.error e, w1)
      | (.ok _, w1) => runChecks rest req ctx w1

/-- The solve phase:
`Promise.all(constraints.map(c => c.solve(...).then(mapSolution)))`.
Since `solve` is read-only on context and world, the concurrent join is a
left-to-right fold; any rejection rejects the whole. -/
def solveAll {V T U ω : Type} :
    List (Constraint V T U ω) → U → T → ω →
    Except (JsError V) (List (List (Solution V T ω)))
  | [], _, _, _ => .ok []
  | c :: rest, req, ctx, w =>
      match c.solve req ctx w with
      | .error e => .error e
      | .ok s =>
          match solveAll rest req ctx w with
          | .error e => .error e
          | .ok l => .ok (mapSolution s :: l)

/-- Outcome of one combo iteration: an uncaught throw (from `forker`, a
solution, or a check — all outside the `try`), a caught failure (from the
`transformer` or the `property`, inside the `try`), or a pass carrying the
gas contribution. -/
inductive ComboOut (V : Type) : Type where
  | thrown (e : JsError V)
  | failed (e : JsError V)
  | passed (gas : ℕ)
deriving DecidableEq

/-- Whether a combo iteration passed. -/
def ComboOut.isPassed {V : Type} : ComboOut V → Bool
  | .passed _ => true
  | _ => false

/-- One combo iteration's outcome, the world state afterwards, the context
snapshot handle afterwards, and whether `scenario.property` was invoked. -/
structure ComboRes (V ω : Type) : Type where
  out : ComboOut V
  world : ω
  snap : ω
  propertyCalled : Bool
deriving DecidableEq

/-- One iteration of the combo loop (the body of
`for (const combo of combos(...))` in `Runner.run`). The world state at
entry is the state captured by `contextSnapshot` (`snap`), because every
earlier iteration ends by reverting to it. The `finally` of the `try`
reverts to `snap` exactly when the `try` region was entered; throws from
`forker`, the solutions, or the checks happen before the `try` and escape
without a revert. -/
def runCombo {V T U A ω : Type} (scenario : Scenario V T U A ω) (context : T)
    (snap : ω) (combo : List (Solution V T ω)) : ComboRes V ω :=
  match scenario.forker context with
  | .error e => ⟨.thrown e, snap, snap, false⟩
  | .ok ctx0 =>
      match applySolutions combo ctx0 snap with
      | (.error e, w1) => ⟨.thrown e, w1, snap, false⟩
      | (.ok ctx, w1) =>
          match runChecks scenario.constraints scenario.requirements ctx w1 with
          | (.error e, w2) => ⟨.thrown e, w2, snap, false⟩
          | (.ok _, w2) =>
              match scenario.transformer ctx with
              | .error e =>
                  let rs := World.revertAndSnapshot snap w2
                  ⟨.failed e, rs.2, rs.1, false⟩
              | .ok v =>
                  match scenario.property v w2 ctx with
                  | (.error e, w3) =>
                      let rs := World.revertAndSnapshot snap w3
                      ⟨.failed e, rs.2, rs.1, true⟩
                  | (.ok receipt, w3) =>
                      let gas := match receipt with
                        | some r => r.cumulativeGasUsed
                        | none => 0
                      let rs := World.revertAndSnapshot snap w3
                      ⟨.passed gas, rs.2, rs.1, true⟩

/-- Gas a combo contributes when it passes (0 otherwise). -/
def comboGas {V T U A ω : Type} (scenario : Scenario V T U A ω) (context : T)
    (snap : ω) (combo : List (Solution V T ω)) : ℕ :=
  match (runCombo scenario context snap combo).out with
  | .passed gas => gas
  | _ => 0

/-- Observable outcome of `Runner.run`: the returned `Result` (or, when the
underlying promise rejects, the escaped error), the final world state, the
final snapshot handles, and instrumentation counters: how many times
`scenario.property` was invoked, how many combo iterations were entered,
and the final values of the internal `cumulativeGas` and `numSolutionSets`
accumulators. -/
structure RunOutput (V ω : Type) : Type where
  result : Except (JsError V) (Result V)
  world : ω
  contextSnapshot : Option ω
  worldSnapshot : ω
  propertyCalls : ℕ
  combosStarted : ℕ
  cumulativeGas : ℕ
  numSolutionSets : ℕ

/-- The combo loop of `Runner.run`: on a pass accumulate gas, bump the
counter and continue; on a caught failure return
`generateResult(base, scenario, startTime, numSolutionSets, e)` — note the
positional slip of the source: the error `e` is passed where the
`numSolutionSets` parameter sits and the `err` parameter stays `undefined`;
on an uncaught throw the rejection escapes `run`. -/
def comboLoop {V T U A ω : Type} [DecidableEq V] (base : ForkSpec)
    (scenario : Scenario V T U A ω) (startTime : ℕ) (context : T) (ws : ω) :
    List (List (Solution V T ω)) → ω → ℕ → ℕ → ℕ → ℕ → RunOutput V ω
  | [], snap, cumulativeGas, n, pc, started =>
      ⟨.ok (generateResult base scenario startTime
          (.num (.real (cumulativeGas : ℚ))) (.num (.real (n : ℚ))) none),
        snap, some snap, ws, pc, started, cumulativeGas, n⟩
  | combo :: rest, snap, cumulativeGas, n, pc, started =>
      match runCombo scenario context snap combo with
      | ⟨.thrown e, w1, snap1, called⟩ =>
          ⟨.error e, w1, some snap1, ws, pc + (if called then 1 else 0),
            started + 1, cumulativeGas, n⟩
      | ⟨.failed e, w1, snap1, called⟩ =>
          ⟨.ok (generateResult base scenario startTime
              (.num (.real (n : ℚ))) (.errObj e) none),
            w1, some snap1, ws, pc + (if called then 1 else 0),
            started + 1, cumulativeGas, n⟩
      | ⟨.passed gas, _w1, snap1, called⟩ =>
          comboLoop base scenario startTime context ws rest snap1
            (cumulativeGas + gas) (n + 1) (pc + (if called then 1 else 0))
            (started + 1)

/-- The body of `Runner.run` after the world reset: build the context and
take the context snapshot, solve and normalize the constraints, prefix the
identity-only choice group, and run the combo loop. `ws` is the new rolling
world-snapshot handle, `w` the world state after the reset. Throws from
`initializer` or from any `solve` escape uncaught. -/
def Runner.runFrom {V T U A ω : Type} [DecidableEq V] (base : ForkSpec)
    (scenario : Scenario V T U A ω) (ws : ω) (w : ω) : RunOutput V ω :=
  let startTime := 0
  match scenario.initializer w with
  | (.error e, w1) => ⟨.error e, w1, none, ws, 0, 0, 0, 0⟩
  | (.ok context, w1) =>
      let snapPair := World.snapshot w1
      match solveAll scenario.constraints scenario.requirements context snapPair.2 with
      | .error e => ⟨.error e, snapPair.2, some snapPair.1, ws, 0, 0, 0, 0⟩
      | .ok solutionChoices =>
          comboLoop base scenario startTime context ws
            (combos ([[identity]] ++ solutionChoices)) snapPair.1 0 0 0 0

/-- Method `Runner.run(scenario)`. `worldSnapshot` is the Runner's rolling
snapshot handle (`none` models `undefined` before first use): the world is
reverted to it and re-snapshotted when it exists, snapshotted for the first
time otherwise; then the rest of the body (`Runner.runFrom`) runs. -/
def Runner.run {V T U A ω : Type} [DecidableEq V] (worldSnapshot : Option ω)
    (base : ForkSpec) (scenario : Scenario V T U A ω) (w0 : ω) : RunOutput V ω :=
  let reset : ω × ω :=
    match worldSnapshot with
    | some h => World.revertAndSnapshot h w0
    | none => World.snapshot w0
  Runner.runFrom base scenario reset.1 reset.2

/-- Whether an `Except` is a normal return. -/
def exceptOk {ε α : Type} : Except ε α → Bool
  | .ok _ => true
  | .error _ => false

/-! Concrete fixtures instantiating the embedding at
`V = ℕ`, `T = ℕ`, `U = Unit`, `A = ℕ`, `ω = ℕ`. -/

/-- The base fork used by the concrete scenarios below. -/
def bf : ForkSpec := ⟨"base"⟩

/-- A plain (non-assertion) thrown error. -/
def e0 : JsError ℕ := ⟨false, none, none, "stack0"⟩

/-- An error thrown by a constraint check. -/
def e1 : JsError ℕ := ⟨false, none, none, "stack1"⟩

/-- An assertion-style error with `actual = 1`, `expected = 2`. -/
def eA : JsError ℕ := ⟨true, some 1, some 2, "stackA"⟩

/-- A solution that replaces the context by its successor. -/
def incSol : Solution ℕ ℕ ℕ := fun ctx w => (.ok (.truthy (ctx + 1)), w)

/-- A solution that sets the context to `k`. -/
def setSol (k : ℕ) : Solution ℕ ℕ ℕ := fun _ctx w => (.ok (.truthy k), w)

/-- A solution that resolves to the falsy value `0`. -/
def falsySol : Solution ℕ ℕ ℕ := fun _ctx w => (.ok (.falsy .zero), w)

/-- A constraint that always solves to `sr` and whose check passes. -/
def okConstraint (sr : SolveRes ℕ ℕ ℕ) : Constraint ℕ ℕ Unit ℕ :=
  ⟨fun _ _ _ => .ok sr, fun _ _ w => (.ok ⟨⟩, w)⟩

/-- Scenario with zero constraints and a trivially succeeding property. -/
def idSc : Scenario ℕ ℕ Unit ℕ ℕ :=
  { name := "id"
    file := none
    requirements := ()
    initializer := fun w => (.ok 0, w)
    forker := fun t => .ok t
    transformer := fun t => .ok t
    property := fun _v w _ctx => (.ok none, w)
    constraints := [] }

/-- Scenario with zero constraints whose property throws the plain error
`e0`. -/
def failSc : Scenario ℕ ℕ Unit ℕ ℕ :=
  { name := "fail"
    file := none
    requirements := ()
    initializer := fun w => (.ok 0, w)
    forker := fun t => .ok t
    transformer := fun t => .ok t
    property := fun _v w _ctx => (.error e0, w)
    constraints := [] }

/-- Scenario with zero constraints whose property throws the assertion
error `eA` (`actual = 1`, `expected = 2`). -/
def assertSc : Scenario ℕ ℕ Unit ℕ ℕ :=
  { name := "assert"
    file := none
    requirements := ()
    initializer := fun w => (.ok 0, w)
    forker := fun t => .ok t
    transformer := fun t => .ok t
    property := fun _v w _ctx => (.error eA, w)
    constraints := [] }

/-- Scenario with one constraint solving to nullish whose check mutates the
world to 100 and then throws `e1`. -/
def checkThrowSc : Scenario ℕ ℕ Unit ℕ ℕ :=
  { name := "check"
    file := none
    requirements := ()
    initializer := fun w => (.ok 0, w)
    forker := fun t => .ok t
    transformer := fun t => .ok t
    property := fun _v w _ctx => (.ok none, w)
    constraints := [⟨fun _ _ _ => .ok .nullish, fun _ _ _w => (.error e1, 100)⟩] }

/-- Scenario with one constraint whose solve resolves to the empty array. -/
def emptySolveSc : Scenario ℕ ℕ Unit ℕ ℕ :=
  { name := "empty"
    file := none
    requirements := ()
    initializer := fun w => (.ok 0, w)
    forker := fun t => .ok t
    transformer := fun t => .ok t
    property := fun _v w _ctx => (.ok none, w)
    constraints := [okConstraint (.arr [])] }

/-- Scenario with one constraint offering two solutions; the property
reports gas 100 under the first and gas 300 under the second. -/
def twoGasSc : Scenario ℕ ℕ Unit ℕ ℕ :=
  { name := "gas"
    file := none
    requirements := ()
    initializer := fun w => (.ok 0, w)
    forker := fun t => .ok t
    transformer := fun t => .ok t
    property := fun _v w ctx => (.ok (some ⟨if ctx = 1 then 100 else 300⟩), w)
    constraints := [okConstraint (.arr [setSol 1, setSol 2])] }

/-- Scenario whose property throws `e0` exactly when the context is 2 and
otherwise reports gas 10. -/
def sc9 : Scenario ℕ ℕ Unit ℕ ℕ :=
  { name := "three"
    file := none
    requirements := ()
    initializer := fun w => (.ok 0, w)
    forker := fun t => .ok t
    transformer := fun t => .ok t
    property := fun _v w ctx => if ctx = 2 then (.error e0, w) else (.ok (some ⟨10⟩), w)
    constraints := [] }

/-- The `Result` record the buggy failure path builds for `failSc`. -/
def failRes : Result ℕ :=
  generateResult bf failSc 0 (.num (.real ((0 : ℕ) : ℚ))) (.errObj e0) none

/-- The `Result` record the buggy failure path builds for `assertSc`. -/
def assertRes : Result ℕ :=
  generateResult bf assertSc 0 (.num (.real ((0 : ℕ) : ℚ))) (.errObj eA) none

/-- The `Result` record of the successful `twoGasSc` run. -/
def gasRes : Result ℕ :=
  generateResult bf twoGasSc 0 (.num (.real ((400 : ℕ) : ℚ)))
    (.num (.real ((2 : ℕ) : ℚ))) none

/-- The `Result` record of the successful `idSc` run. -/
def idRes : Result ℕ :=
  generateResult bf idSc 0 (.num (.real ((0 : ℕ) : ℚ)))
    (.num (.real ((1 : ℕ) : ℚ))) none

/-- The `Result` record of the `emptySolveSc` run (zero combos). -/
def emptyRes : Result ℕ :=
  generateResult bf emptySolveSc 0 (.num (.real ((0 : ℕ) : ℚ)))
    (.num (.real ((0 : ℕ) : ℚ))) none

/-! Helper lemmas about the combo generator and the loop. -/

/-- A list is yielded by `combos choices` exactly when it picks one element
from each choice list, in order. -/
theorem mem_combos {α : Type} (choices : List (List α)) (c : List α) :
    c ∈ combos choices ↔ List.Forall₂ (fun x l => x ∈ l) c choices := by
  induction choices generalizing c with
  | nil =>
      simp only [combos, List.mem_singleton, List.forall₂_nil_right_iff]
  | cons g gs ih =>
      simp only [combos, List.mem_flatMap, List.mem_map,
        List.forall₂_cons_right_iff]
      constructor
      · rintro ⟨a, ha, c', hc', rfl⟩
        exact ⟨a, c', ha, (ih c').mp hc', rfl⟩
      · rintro ⟨a, c', ha, h2, rfl⟩
        exact ⟨a, ha, c', (ih c').mpr h2, rfl⟩

/-- When every choice list is nonempty, `combos` yields at least one
combination. -/
theorem combos_ne_nil {α : Type} (choices : List (List α))
    (h : ∀ g ∈ choices, g ≠ []) : combos choices ≠ [] := by
  induction choices with
  | nil => simp [combos]
  | cons g gs ih =>
      have hgs : combos gs ≠ [] :=
        ih (fun g' hg' => h g' (List.mem_cons_of_mem _ hg'))
      obtain ⟨a, ha⟩ := List.exists_mem_of_ne_nil g (h g (List.mem_cons_self g gs))
      obtain ⟨c, hc⟩ := List.exists_mem_of_ne_nil _ hgs
      have hmem : a :: c ∈ combos (g :: gs) := by
        simp only [combos, List.mem_flatMap, List.mem_map]
        exact ⟨a, ha, c, hc, rfl⟩
      exact List.ne_nil_of_mem hmem

/-- If every constraint's solve result normalizes to a nonempty solution
list, all groups produced by the solve phase are nonempty. -/
theorem solveAll_groups_ne_nil {V T U ω : Type}
    (cs : List (Constraint V T U ω)) (req : U) (ctx : T) (w : ω)
    (groups : List (List (Solution V T ω)))
    (hok : solveAll cs req ctx w = .ok groups)
    (hs : ∀ c ∈ cs, ∀ (req' : U) (ctx' : T) (w' : ω) (s : SolveRes V T ω),
        c.solve req' ctx' w' = .ok s → mapSolution s ≠ []) :
    ∀ g ∈ groups, g ≠ [] := by
  induction cs generalizing groups with
  | nil =>
      simp only [solveAll] at hok
      cases hok
      simp
  | cons c rest ih =>
      simp only [solveAll] at hok
      rcases h1 : c.solve req ctx w with e | s
      · rw [h1] at hok; cases hok
      · rw [h1] at hok
        rcases h2 : solveAll rest req ctx w with e | l
        · rw [h2] at hok; cases hok
        · rw [h2] at hok
          cases hok
          intro g hg
          rcases List.mem_cons.mp hg with hg | hg
          · subst hg
            exact hs c (List.mem_cons_self c rest) req ctx w s h1
          · exact ih l h2 (fun c' hc' => hs c' (List.mem_cons_of_mem _ hc')) g hg

/-- A combo iteration never changes the context snapshot handle (reverting
re-captures the same state). -/
theorem runCombo_snap_eq {V T U A ω : Type} (scenario : Scenario V T U A ω)
    (context : T) (snap : ω) (combo : List (Solution V T ω)) :
    (runCombo scenario context snap combo).snap = snap := by
  unfold runCombo
  repeat' split
  all_goals rfl

/-- A combo iteration whose failure was caught ends with the world reverted
to the snapshot. -/
theorem runCombo_failed_world {V T U A ω : Type} (scenario : Scenario V T U A ω)
    (context : T) (snap : ω) (combo : List (Solution V T ω)) (e : JsError V)
    (h : (runCombo scenario context snap combo).out = ComboOut.failed e) :
    (runCombo scenario context snap combo).world = snap := by
  revert h
  unfold runCombo
  repeat' split
  all_goals intro h
  all_goals first | rfl | simp_all

/-- A passing combo iteration ends with the world reverted to the
snapshot. -/
theorem runCombo_passed_world {V T U A ω : Type} (scenario : Scenario V T U A ω)
    (context : T) (snap : ω) (combo : List (Solution V T ω)) (gas : ℕ)
    (h : (runCombo scenario context snap combo).out = ComboOut.passed gas) :
    (runCombo scenario context snap combo).world = snap := by
  revert h
  unfold runCombo
  repeat' split
  all_goals intro h
  all_goals first | rfl | simp_all

/-- A passing combo iteration invoked the property. -/
theorem runCombo_passed_called {V T U A ω : Type} (scenario : Scenario V T U A ω)
    (context : T) (snap : ω) (combo : List (Solution V T ω)) (gas : ℕ)
    (h : (runCombo scenario context snap combo).out = ComboOut.passed gas) :
    (runCombo scenario context snap combo).propertyCalled = true := by
  revert h
  unfold runCombo
  repeat' split
  all_goals intro h
  all_goals first | rfl | simp_all

/-- Whenever the combo loop returns a `Result` (success or caught failure),
the final world state is the state captured by the context snapshot. -/
theorem comboLoop_ok_world {V T U A ω : Type} [DecidableEq V] (base : ForkSpec)
    (scenario : Scenario V T U A ω) (startTime : ℕ) (context : T) (ws : ω)
    (cs : List (List (Solution V T ω))) :
    ∀ (snap : ω) (g n pc st : ℕ) (res : Result V),
      (comboLoop base scenario startTime context ws cs snap g n pc st).result
        = .ok res →
      (comboLoop base scenario startTime context ws cs snap g n pc st).contextSnapshot
        = some ((comboLoop base scenario startTime context ws cs snap g n pc st).world) := by
  induction cs with
  | nil => intro snap g n pc st res _; rfl
  | cons combo rest ih =>
      intro snap g n pc st res hok
      rcases hr : runCombo scenario context snap combo with ⟨out, w1, snap1, called⟩
      have hsnap : snap1 = snap := by
        have h := runCombo_snap_eq scenario context snap combo
        rw [hr] at h; exact h
      cases out with
      | thrown e =>
          simp only [comboLoop, hr] at hok
          exact absurd hok (by simp)
      | failed e =>
          have hw : w1 = snap := by
            have h := runCombo_failed_world scenario context snap combo e (by rw [hr])
            rw [hr] at h; exact h
          simp only [comboLoop, hr]
          rw [hw, hsnap]
      | passed gas =>
          simp only [comboLoop, hr] at hok ⊢
          exact ih snap1 (g + gas) (n + 1) (pc + (if called then 1 else 0))
            (st + 1) res hok

/-- The combos-started counter never decreases along the loop. -/
theorem comboLoop_started_le {V T U A ω : Type} [DecidableEq V] (base : ForkSpec)
    (scenario : Scenario V T U A ω) (startTime : ℕ) (context : T) (ws : ω)
    (cs : List (List (Solution V T ω))) :
    ∀ (snap : ω) (g n pc st : ℕ),
      st ≤ (comboLoop base scenario startTime context ws cs snap g n pc st).combosStarted := by
  induction cs with
  | nil => intro snap g n pc st; exact Nat.le_refl st
  | cons combo rest ih =>
      intro snap g n pc st
      rcases hr : runCombo scenario context snap combo with ⟨out, w1, snap1, called⟩
      cases out with
      | thrown e => simp only [comboLoop, hr]; exact Nat.le_succ st
      | failed e => simp only [comboLoop, hr]; exact Nat.le_succ st
      | passed gas =>
          simp only [comboLoop, hr]
          exact Nat.le_trans (Nat.le_succ st)
            (ih snap1 (g + gas) (n + 1) (pc + (if called then 1 else 0)) (st + 1))

/-- On a nonempty combo list, the loop enters at least one iteration. -/
theorem comboLoop_cons_started {V T U A ω : Type} [DecidableEq V] (base : ForkSpec)
    (scenario : Scenario V T U A ω) (startTime : ℕ) (context : T) (ws : ω)
    (combo : List (Solution V T ω)) (rest : List (List (Solution V T ω)))
    (snap : ω) (g n pc st : ℕ) :
    st + 1 ≤ (comboLoop base scenario startTime context ws (combo :: rest)
      snap g n pc st).combosStarted := by
  rcases hr : runCombo scenario context snap combo with ⟨out, w1, snap1, called⟩
  cases out with
  | thrown e => simp only [comboLoop, hr]; exact Nat.le_refl (st + 1)
  | failed e => simp only [comboLoop, hr]; exact Nat.le_refl (st + 1)
  | passed gas =>
      simp only [comboLoop, hr]
      exact comboLoop_started_le base scenario startTime context ws rest
        snap1 (g + gas) (n + 1) (pc + (if called then 1 else 0)) (st + 1)

/-- When the loop returns a `Result` whose `numSolutionSets` field is a
number, the run was a genuine success: every combo passed, the counter is
the starting counter plus the number of combos, the accumulated gas is the
starting gas plus each passing combo's receipt gas, and `gasUsed` is the
accumulated gas divided by the counter. -/
theorem comboLoop_ok_num {V T U A ω : Type} [DecidableEq V] (base : ForkSpec)
    (scenario : Scenario V T U A ω) (startTime : ℕ) (context : T) (ws : ω)
    (cs : List (List (Solution V T ω))) :
    ∀ (snap : ω) (g n pc st : ℕ) (res : Result V) (x : JsNum),
      (comboLoop base scenario startTime context ws cs snap g n pc st).result
        = .ok res →
      res.numSolutionSets = .num x →
      x = .real ((n + cs.length : ℕ) : ℚ) ∧
      (comboLoop base scenario startTime context ws cs snap g n pc st).numSolutionSets
        = n + cs.length ∧
      (comboLoop base scenario startTime context ws cs snap g n pc st).cumulativeGas
        = g + (cs.map (comboGas scenario context snap)).sum ∧
      res.gasUsed
        = JsNum.div (.real ((g + (cs.map (comboGas scenario context snap)).sum : ℕ) : ℚ))
            (.real ((n + cs.length : ℕ) : ℚ)) := by
  induction cs with
  | nil =>
      intro snap g n pc st res x hok hnum
      simp only [comboLoop] at hok ⊢
      injection hok with hok
      subst hok
      simp only [generateResult] at hnum
      injection hnum with hnum
      subst hnum
      refine ⟨by simp, by simp, by simp, ?_⟩
      simp [generateResult, JsVal.div, JsVal.toNum]
  | cons combo rest ih =>
      intro snap g n pc st res x hok hnum
      rcases hr : runCombo scenario context snap combo with ⟨out, w1, snap1, called⟩
      have hsnap : snap1 = snap := by
        have h := runCombo_snap_eq scenario context snap combo
        rw [hr] at h; exact h
      cases out with
      | thrown e =>
          simp only [comboLoop, hr] at hok
          exact absurd hok (by simp)
      | failed e =>
          simp only [comboLoop, hr] at hok
          injection hok with hok
          subst hok
          simp only [generateResult] at hnum
          exact absurd hnum (by simp)
      | passed gas =>
          rw [hsnap] at hr
          simp only [comboLoop, hr] at hok ⊢
          have hgas : comboGas scenario context snap combo = gas := by
            simp [comboGas, hr]
          obtain ⟨h1, h2, h3, h4⟩ := ih snap (g + gas) (n + 1)
            (pc + (if called then 1 else 0)) (st + 1) res x hok hnum
          have e1 : g + gas + (rest.map (comboGas scenario context snap)).sum
              = g + ((combo :: rest).map (comboGas scenario context snap)).sum := by
            simp only [List.map_cons, List.sum_cons, hgas]
            omega
          have e2 : n + 1 + rest.length = n + (combo :: rest).length := by
            simp only [List.length_cons]
            omega
          refine ⟨?_, ?_, ?_, ?_⟩
          · rw [h1, e2]
          · rw [h2, e2]
          · rw [h3, e1]
          · rw [h4, e1, e2]

/-- `run` is `runFrom` at the world state selected by the rolling-snapshot
reset (the handle's state when one exists, the initial state otherwise). -/
theorem run_eq_runFrom {V T U A ω : Type} [DecidableEq V]
    (worldSnapshot : Option ω) (base : ForkSpec) (scenario : Scenario V T U A ω)
    (w0 : ω) :
    Runner.run worldSnapshot base scenario w0
      = Runner.runFrom base scenario
          (match worldSnapshot with | some h => h | none => w0)
          (match worldSnapshot with | some h => h | none => w0) := by
  cases worldSnapshot <;> rfl

/-- When `runFrom` returns a `Result`, the initializer and the solve phase
succeeded and the output is that of the combo loop started on the combos of
the identity-prefixed groups, at the post-initializer snapshot. -/
theorem runFrom_result_ok {V T U A ω : Type} [DecidableEq V] (base : ForkSpec)
    (scenario : Scenario V T U A ω) (ws w : ω) (res : Result V)
    (hok : (Runner.runFrom base scenario ws w).result = .ok res) :
    ∃ (context : T) (w1 : ω) (groups : List (List (Solution V T ω))),
      scenario.initializer w = (.ok context, w1) ∧
      solveAll scenario.constraints scenario.requirements context w1 = .ok groups ∧
      Runner.runFrom base scenario ws w
        = comboLoop base scenario 0 context ws
            (combos ([[identity]] ++ groups)) w1 0 0 0 0 := by
  rcases hinit : scenario.initializer w with ⟨ir, w1⟩
  cases ir with
  | error e =>
      simp only [Runner.runFrom, hinit] at hok
      exact absurd hok (by simp)
  | ok context =>
      rcases hsol : solveAll scenario.constraints scenario.requirements context w1
        with e | groups
      · simp only [Runner.runFrom, hinit, World.snapshot, hsol] at hok
        exact absurd hok (by simp)
      · refine ⟨context, w1, groups, rfl, hsol, ?_⟩
        simp only [Runner.runFrom, hinit, World.snapshot, hsol]

/-! Claim theorems. -/

/-- C6: the combo generator yields exactly the combinations picking one
element from each choice list, enumerated head-list-major (fix the head
list's element, recurse over the remaining lists): for groups `[[a],[x,y]]`
it yields exactly `[a,x]` then `[a,y]` in that order, and for the empty
input list it yields exactly one empty combination. -/
theorem c6_combos_enumeration :
    (∀ (α : Type) (choices : List (List α)) (c : List α),
        c ∈ combos choices ↔ List.Forall₂ (fun x l => x ∈ l) c choices) ∧
    (∀ (α : Type) (g : List α) (gs : List (List α)),
        combos (g :: gs)
          = g.flatMap (fun option => (combos gs).map (fun combo => option :: combo))) ∧
    (∀ (α : Type) (a x y : α), combos [[a], [x, y]] = [[a, x], [a, y]]) ∧
    (∀ (α : Type), combos ([] : List (List α)) = [[]]) :=
  ⟨fun _ choices c => mem_combos choices c, fun _ _ _ => rfl,
    fun _ _ _ _ => rfl, fun _ => rfl⟩

/-- C7 counterexample: with one constraint whose solve yields the single
non-identity solution `incSol`, combo index 0 is `[identity, incSol]` — not
the all-identity combo. -/
theorem c7_combo0_not_all_identity_cex :
    (combos ([[identity]] ++ [[incSol]])).head? = some [identity, incSol] ∧
    incSol ≠ (identity : Solution ℕ ℕ ℕ) ∧
    (combos ([[identity]] ++ [[incSol]])).head?
      ≠ some [(identity : Solution ℕ ℕ ℕ), identity] := by
  have hne : incSol ≠ (identity : Solution ℕ ℕ ℕ) := by
    intro h
    have h0 := congrFun (congrFun h 0) 0
    simp [incSol, identity] at h0
  refine ⟨rfl, hne, ?_⟩
  intro h
  have h2 : (some [incSol] : Option (List (Solution ℕ ℕ ℕ)))
      = some [identity] := by
    have h3 : (some [identity, incSol] : Option (List (Solution ℕ ℕ ℕ)))
        = some [identity, identity] := h
    simp only [Option.some.injEq, List.cons.injEq, and_true, true_and] at h3
    rw [h3]
  simp only [Option.some.injEq, List.cons.injEq, and_true] at h2
  exact hne h2

/-- C7 (amended): each constraint's solve result is normalized exactly as
claimed (nullish to the identity solution, a bare solution wrapped, an
array passed through), and the choice groups are prefixed by an
identity-only group, so every combo — in particular combo index 0 — has the
identity as its first element; with zero constraints exactly one combo
runs, `[identity]`, and applying it leaves context and world unchanged. -/
theorem c7_identity_first_amended :
    (∀ (V T ω : Type), mapSolution (.nullish : SolveRes V T ω) = [identity]) ∧
    (∀ (V T ω : Type) (s : Solution V T ω), mapSolution (.single s) = [s]) ∧
    (∀ (V T ω : Type) (l : List (Solution V T ω)), mapSolution (.arr l) = l) ∧
    (∀ (V T ω : Type) (choices : List (List (Solution V T ω))),
        combos ([[identity]] ++ choices)
          = (combos choices).map (fun combo => identity :: combo)) ∧
    (∀ (V T ω : Type),
        combos ([[identity]] ++ ([] : List (List (Solution V T ω)))) = [[identity]]) ∧
    (∀ (V T ω : Type) (ctx : T) (w : ω),
        applySolutions ([identity] : List (Solution V T ω)) ctx w = (.ok ctx, w)) := by
  refine ⟨fun _ _ _ => rfl, fun _ _ _ _ => rfl, fun _ _ _ _ => rfl, ?_,
    fun _ _ _ => rfl, fun _ _ _ _ _ => rfl⟩
  intro V T ω choices
  simp [combos]

/-- C10: a solution resolving to any falsy value has its resolved value
discarded: the previous context reference keeps threading into the
remaining solutions of the combo (and hence into the checks and the
property, which receive this fold's final context). -/
theorem c10_falsy_keeps_context {V T ω : Type} (s : Solution V T ω)
    (rest : List (Solution V T ω)) (ctx : T) (w w1 : ω) (f : Falsy)
    (h : s ctx w = (.ok (.falsy f), w1)) :
    applySolutions (s :: rest) ctx w = applySolutions rest ctx w1 := by
  simp only [applySolutions, h]

/-- C10 witness: the solution resolving to the falsy value `0` leaves the
context 5 in place for the next solution, which then increments it. -/
theorem c10_falsy_keeps_context_witness :
    applySolutions [falsySol, incSol] 5 0 = applySolutions [incSol] 5 0 ∧
    applySolutions [incSol] (5 : ℕ) (0 : ℕ) = (.ok 6, 0) :=
  ⟨c10_falsy_keeps_context falsySol [incSol] 5 0 0 .zero rfl, rfl⟩

/-- C1: the claim fails on the code. When the property throws, the returned
`Result` has `error = null` and `trace = null`, because the thrown error is
passed positionally into the `numSolutionSets` parameter of
`generateResult` and its `err` parameter stays `undefined`; and when a
constraint check throws, the rejection escapes `run` entirely instead of
being converted into a `Result`. -/
theorem c1_run_error_field_bug :
    ((Runner.run (ω := ℕ) none bf failSc 0).result = .ok failRes) ∧
    failRes.error = none ∧
    failRes.trace = none ∧
    ((Runner.run (ω := ℕ) none bf checkThrowSc 0).result = .error e1) :=
  ⟨rfl, rfl, rfl, rfl⟩

/-- C3: the claim fails on the code's failure path. When the property of
the first (identity) combo throws `e0`, the internal counter is 0 and the
property was called once, yet the returned `Result`'s `numSolutionSets`
field holds the thrown error object, not the count. -/
theorem c3_numSolutionSets_bug :
    ((Runner.run (ω := ℕ) none bf failSc 0).result = .ok failRes) ∧
    failRes.numSolutionSets = .errObj e0 ∧
    (Runner.run (ω := ℕ) none bf failSc 0).numSolutionSets = 0 ∧
    (Runner.run (ω := ℕ) none bf failSc 0).propertyCalls = 1 ∧
    failRes.numSolutionSets ≠ .num (.real ((0 : ℕ) : ℚ)) := by
  refine ⟨rfl, rfl, rfl, rfl, ?_⟩
  simp [failRes, generateResult]

/-- C4: the claim fails on the code. A property throwing the assertion
error `eA` (`actual = 1 ≠ expected = 2`) yields a `Result` with
`diff = null`, because the error never reaches `generateResult`'s `err`
parameter (it is passed in the `numSolutionSets` position); calling
`generateResult` with `err = eA` directly would produce the diff. A plain
error also yields `diff = null`, as claimed. -/
theorem c4_diff_bug :
    ((Runner.run (ω := ℕ) none bf assertSc 0).result = .ok assertRes) ∧
    assertRes.diff = none ∧
    (generateResult bf assertSc 0 (.num (.real ((0 : ℕ) : ℚ)))
        (.num (.real ((0 : ℕ) : ℚ))) (some eA)).diff = some (some 1, some 2) ∧
    ((Runner.run (ω := ℕ) none bf failSc 0).result = .ok failRes) ∧
    failRes.diff = none :=
  ⟨rfl, rfl, by decide, rfl, rfl⟩

/-- C2 counterexample: in a scenario whose constraint check mutates the
world to 100 and then throws, `run` ends (by rejection) with the world at
100 while the context snapshot captured 0 — the check-failure exit path of
the combo loop performs no revert. -/
theorem c2_check_throw_no_revert_cex :
    ((Runner.run (ω := ℕ) none bf checkThrowSc 0).result = .error e1) ∧
    ((Runner.run (ω := ℕ) none bf checkThrowSc 0).contextSnapshot = some 0) ∧
    ((Runner.run (ω := ℕ) none bf checkThrowSc 0).world = 100) ∧
    (Runner.run (ω := ℕ) none bf checkThrowSc 0).contextSnapshot
      ≠ some ((Runner.run (ω := ℕ) none bf checkThrowSc 0).world) :=
  ⟨rfl, rfl, rfl, by decide⟩

/-- C2 (amended): whenever a combo reaches the `try` region — the property
call succeeded, or the transformer or property threw and was caught — the
world is reverted to the context snapshot (and the snapshot renewed) before
the next combo or return; consequently whenever `run` returns a `Result`
the final world state equals the context snapshot state. A throw from a
solution or a constraint check, however, escapes before the `finally` and
no revert happens. -/
theorem c2_revert_amended {V T U A ω : Type} [DecidableEq V]
    (scenario : Scenario V T U A ω) :
    (∀ (context : T) (snap : ω) (combo : List (Solution V T ω)) (e : JsError V),
        (runCombo scenario context snap combo).out = .failed e →
        (runCombo scenario context snap combo).world = snap ∧
        (runCombo scenario context snap combo).snap = snap) ∧
    (∀ (context : T) (snap : ω) (combo : List (Solution V T ω)) (gas : ℕ),
        (runCombo scenario context snap combo).out = .passed gas →
        (runCombo scenario context snap combo).world = snap ∧
        (runCombo scenario context snap combo).snap = snap) ∧
    (∀ (worldSnapshot : Option ω) (base : ForkSpec) (w0 : ω) (res : Result V),
        (Runner.run worldSnapshot base scenario w0).result = .ok res →
        (Runner.run worldSnapshot base scenario w0).contextSnapshot
          = some ((Runner.run worldSnapshot base scenario w0).world)) := by
  refine ⟨?_, ?_, ?_⟩
  · intro context snap combo e h
    exact ⟨runCombo_failed_world scenario context snap combo e h,
      runCombo_snap_eq scenario context snap combo⟩
  · intro context snap combo gas h
    exact ⟨runCombo_passed_world scenario context snap combo gas h,
      runCombo_snap_eq scenario context snap combo⟩
  · intro worldSnapshot base w0 res hok
    rw [run_eq_runFrom] at hok ⊢
    obtain ⟨context, w1, groups, _, _, heq⟩ :=
      runFrom_result_ok base scenario _ _ res hok
    rw [heq] at hok ⊢
    exact comboLoop_ok_world base scenario 0 context _
      (combos ([[identity]] ++ groups)) w1 0 0 0 0 res hok

/-- C2 (amended) witness: at the concrete scenario `idSc` the run returns a
`Result` and the final world state equals the context snapshot state, and a
concrete passing combo ends with the world reverted to the snapshot. -/
theorem c2_revert_amended_witness :
    ((Runner.run (ω := ℕ) none bf idSc 0).contextSnapshot
      = some ((Runner.run (ω := ℕ) none bf idSc 0).world)) ∧
    ((runCombo idSc 0 7 [identity]).out = .passed 0 ∧
      (runCombo idSc 0 7 [identity]).world = 7) :=
  ⟨(c2_revert_amended idSc).2.2 none bf 0 idRes rfl,
    rfl, ((c2_revert_amended idSc).2.1 0 7 [identity] 0 rfl).1⟩

/-- C5 counterexample: with one constraint whose solve resolves to the
empty array, `run` returns a success `Result` — error absent, counter 0,
`gasUsed` the NaN of `0/0` — although no combo was ever started and the
property was never invoked. -/
theorem c5_empty_solve_success_cex :
    ((Runner.run (ω := ℕ) none bf emptySolveSc 0).result = .ok emptyRes) ∧
    emptyRes.error = none ∧
    emptyRes.numSolutionSets = .num (.real ((0 : ℕ) : ℚ)) ∧
    emptyRes.gasUsed = .nan ∧
    (Runner.run (ω := ℕ) none bf emptySolveSc 0).combosStarted = 0 ∧
    (Runner.run (ω := ℕ) none bf emptySolveSc 0).propertyCalls = 0 ∧
    (Runner.run (ω := ℕ) none bf emptySolveSc 0).numSolutionSets = 0 :=
  ⟨rfl, rfl, rfl, by decide, rfl, rfl, rfl⟩

/-- C5 (amended): provided every constraint's solve result normalizes to a
nonempty solution list (null, a bare solution, or a nonempty array),
whenever `run` returns a `Result` at least one combo was executed, and when
that `Result` is a genuine success (numeric `numSolutionSets`) the counter
dividing `cumulativeGas` is at least one. (If some solve resolves to an
empty array, `run` can instead return a success `Result` with zero combos
executed.) -/
theorem c5_nonempty_amended {V T U A ω : Type} [DecidableEq V]
    (worldSnapshot : Option ω) (base : ForkSpec) (scenario : Scenario V T U A ω)
    (w0 : ω)
    (hs : ∀ c ∈ scenario.constraints, ∀ (req : U) (ctx : T) (w : ω)
        (s : SolveRes V T ω), c.solve req ctx w = .ok s → mapSolution s ≠ []) :
    ∀ (res : Result V),
      (Runner.run worldSnapshot base scenario w0).result = .ok res →
      1 ≤ (Runner.run worldSnapshot base scenario w0).combosStarted ∧
      ∀ (x : JsNum), res.numSolutionSets = .num x →
        1 ≤ (Runner.run worldSnapshot base scenario w0).numSolutionSets := by
  intro res hok
  rw [run_eq_runFrom] at hok ⊢
  obtain ⟨context, w1, groups, hinit, hsol, heq⟩ :=
    runFrom_result_ok base scenario _ _ res hok
  rw [heq] at hok ⊢
  have hgs : ∀ g ∈ [[identity]] ++ groups, g ≠ [] := by
    intro g hg
    rcases List.mem_append.mp hg with hg | hg
    · rw [List.mem_singleton] at hg
      rw [hg]
      simp
    · exact solveAll_groups_ne_nil scenario.constraints _ _ _ groups hsol hs g hg
  have hne : combos ([[identity]] ++ groups) ≠ [] :=
    combos_ne_nil ([[identity]] ++ groups) hgs
  obtain ⟨c, rest, hcr⟩ := List.exists_cons_of_ne_nil hne
  rw [hcr] at hok ⊢
  constructor
  · exact comboLoop_cons_started base scenario 0 context _ c rest w1 0 0 0 0
  · intro x hx
    obtain ⟨-, h2, -, -⟩ := comboLoop_ok_num base scenario 0 context _
      (c :: rest) w1 0 0 0 0 res x hok hx
    rw [h2]
    simp

/-- C5 (amended) witness: the zero-constraint scenario `idSc` runs at least
one combo and its success counter is at least one. -/
theorem c5_nonempty_amended_witness :
    1 ≤ (Runner.run (ω := ℕ) none bf idSc 0).combosStarted ∧
    1 ≤ (Runner.run (ω := ℕ) none bf idSc 0).numSolutionSets := by
  have h := c5_nonempty_amended none bf idSc 0
    (by intro c hc; simp [idSc] at hc) idRes rfl
  exact ⟨h.1, h.2 (.real ((1 : ℕ) : ℚ)) rfl⟩

/-- C8: on genuine success (a returned `Result` with numeric
`numSolutionSets`), `gasUsed` is the arithmetic mean
`cumulativeGas / numSolutionSets` of the gas accumulated from the
property's receipts; concretely, two passing combos reporting gas 100 and
300 yield `gasUsed = 200`. -/
theorem c8_mean_gas {V T U A ω : Type} [DecidableEq V]
    (worldSnapshot : Option ω) (base : ForkSpec) (scenario : Scenario V T U A ω)
    (w0 : ω) :
    (∀ (res : Result V) (x : JsNum),
        (Runner.run worldSnapshot base scenario w0).result = .ok res →
        res.numSolutionSets = .num x →
        res.gasUsed
          = JsNum.div
              (.real ((Runner.run worldSnapshot base scenario w0).cumulativeGas : ℚ))
              (.real ((Runner.run worldSnapshot base scenario w0).numSolutionSets : ℚ)) ∧
        x = .real ((Runner.run worldSnapshot base scenario w0).numSolutionSets : ℚ)) ∧
    ((Runner.run (ω := ℕ) none bf twoGasSc 0).result = .ok gasRes ∧
      (Runner.run (ω := ℕ) none bf twoGasSc 0).cumulativeGas = 400 ∧
      (Runner.run (ω := ℕ) none bf twoGasSc 0).numSolutionSets = 2 ∧
      gasRes.gasUsed = .real 200 ∧
      gasRes.numSolutionSets = .num (.real 2)) := by
  constructor
  · intro res x hok hx
    rw [run_eq_runFrom] at hok ⊢
    obtain ⟨context, w1, groups, hinit, hsol, heq⟩ :=
      runFrom_result_ok base scenario _ _ res hok
    rw [heq] at hok ⊢
    obtain ⟨h1, h2, h3, h4⟩ := comboLoop_ok_num base scenario 0 context _
      (combos ([[identity]] ++ groups)) w1 0 0 0 0 res x hok hx
    constructor
    · rw [h2, h3]
      exact h4
    · rw [h2]
      exact h1
  · refine ⟨rfl, rfl, rfl, ?_, ?_⟩
    · simp [gasRes, generateResult, JsVal.div, JsVal.toNum, JsNum.div]
      norm_num
    · norm_num [gasRes, generateResult]

/-- C8 witness: instantiating the success-path mean at the concrete
two-combo scenario. -/
theorem c8_mean_gas_witness :
    gasRes.gasUsed
      = JsNum.div (.real ((Runner.run (ω := ℕ) none bf twoGasSc 0).cumulativeGas : ℚ))
          (.real ((Runner.run (ω := ℕ) none bf twoGasSc 0).numSolutionSets : ℚ)) :=
  ((c8_mean_gas none bf twoGasSc 0).1 gasRes (.real ((2 : ℕ) : ℚ)) rfl rfl).1

/-- C9: the first combo that does not pass aborts the scenario: the combo
loop's property-invocation count is the count from the passing prefix plus
at most one for the failing combo itself, and no combo after the failing
one contributes — with three combos where the second fails, the property
runs exactly twice. -/
theorem c9_short_circuit {V T U A ω : Type} [DecidableEq V] (base : ForkSpec)
    (scenario : Scenario V T U A ω) (startTime : ℕ) (context : T) (ws : ω)
    (snap : ω) (cs1 cs2 : List (List (Solution V T ω)))
    (c : List (Solution V T ω)) (g n pc st : ℕ)
    (h1 : ∀ c' ∈ cs1, ((runCombo scenario context snap c').out).isPassed = true)
    (h2 : ((runCombo scenario context snap c).out).isPassed = false) :
    (comboLoop base scenario startTime context ws (cs1 ++ c :: cs2)
        snap g n pc st).propertyCalls
      = pc + cs1.length
        + (if (runCombo scenario context snap c).propertyCalled then 1 else 0) := by
  revert h1
  induction cs1 generalizing g n pc st with
  | nil =>
      intro h1
      rcases hr : runCombo scenario context snap c with ⟨out, w1, snap1, called⟩
      cases out with
      | thrown e =>
          simp only [List.nil_append, comboLoop, hr]
          simp
      | failed e =>
          simp only [List.nil_append, comboLoop, hr]
          simp
      | passed gas =>
          rw [hr] at h2
          simp [ComboOut.isPassed] at h2
  | cons c1 cs1' ih =>
      intro h1
      have hp := h1 c1 (List.mem_cons_self c1 cs1')
      rcases hr : runCombo scenario context snap c1 with ⟨out, w1, snap1, called⟩
      cases out with
      | thrown e =>
          rw [hr] at hp
          simp [ComboOut.isPassed] at hp
      | failed e =>
          rw [hr] at hp
          simp [ComboOut.isPassed] at hp
      | passed gas =>
          have hsnap : snap1 = snap := by
            have h := runCombo_snap_eq scenario context snap c1
            rw [hr] at h; exact h
          have hcalled : called = true := by
            have h := runCombo_passed_called scenario context snap c1 gas (by rw [hr])
            rw [hr] at h; exact h
          rw [hsnap] at hr
          subst hcalled
          simp only [List.cons_append, List.append_eq, comboLoop, hr, if_true]
          rw [ih (g + gas) (n + 1) (pc + 1) (st + 1)
            (fun c' hc' => h1 c' (List.mem_cons_of_mem _ hc'))]
          generalize (if (runCombo scenario context snap c).propertyCalled
            then (1 : ℕ) else 0) = k
          simp only [List.length_cons]
          omega

/-- C9 witness: three combos where the second one's property throws — the
property is invoked exactly twice. -/
theorem c9_short_circuit_witness :
    (comboLoop bf sc9 0 0 0 [[setSol 1], [setSol 2], [setSol 3]]
      0 0 0 0 0).propertyCalls = 2 := by
  have h := c9_short_circuit bf sc9 0 0 0 0 [[setSol 1]] [[setSol 3]] [setSol 2]
    0 0 0 0 (by decide) (by decide)
  exact h.trans (by decide)

end Comet
